import Mathlib

/-!
# Verification of the swap cheque model and cash-out request builder

A shallow embedding of the cheque model from `src/main/main.go`:
the `ChequeParams` value object, its canonical byte encoding
(`encodeForSignature`), the personal-message signature hash (`sigHash`),
and the cash-out request builder (`CashChequeBeneficiaryRequest`).

Bytes are modelled as natural numbers (well-formed bytes are `< 256`);
byte strings are `List Nat`.  Keccak-256 — an external library primitive
(`crypto.Keccak256`) — is modelled as an abstract digest function
parameter `keccak : List Nat → List Nat`; claims that depend on its
output width carry the hypothesis that it always returns 32 bytes.
-/

/-- A 20-byte account address, as the source's `common.Address` (`[20]byte`):
a list of exactly 20 well-formed bytes. -/
def EthAddress := { l : List Nat // l.length = 20 ∧ ∀ b ∈ l, b < 256 }

/-- The ASCII bytes of a string (all strings used here are pure ASCII). -/
def asciiBytes (s : String) : List Nat := s.toList.map Char.toNat

/-- The decimal ASCII rendering of a natural number, as Go's `%d` verb
produces for a non-negative length. -/
def decimalAscii (n : Nat) : List Nat := (Nat.toDigits 10 n).map Char.toNat

/-- `binary.BigEndian.PutUint64`: the 8 bytes of a 64-bit word, most
significant first.  Go truncates the argument to 64 bits; each byte here
extracts exactly bits `[8k, 8k+8)`, which has the same effect. -/
def putUint64BE (v : Nat) : List Nat :=
  [v >>> 56 % 256, v >>> 48 % 256, v >>> 40 % 256, v >>> 32 % 256,
   v >>> 24 % 256, v >>> 16 % 256, v >>> 8 % 256, v % 256]

/-- The cheque parameters (`ChequeParams` in the source).  The
`CumulativePayout` field is a `uint64` in the source; it is modelled as a
`Nat`, with the 64-bit range stated as a hypothesis where a claim needs
it. -/
structure ChequeParams where
  Contract : EthAddress
  Beneficiary : EthAddress
  CumulativePayout : Nat

/-- `encodeForSignature`: a 32-byte slot whose last 8 bytes hold the
payout in big-endian order, appended after the contract and beneficiary
address bytes. -/
def ChequeParams.encodeForSignature (cheque : ChequeParams) : List Nat :=
  let cumulativePayoutBytes := List.replicate 24 0 ++ putUint64BE cheque.CumulativePayout
  cheque.Contract.val ++ cheque.Beneficiary.val ++ cumulativePayoutBytes

/-- The `eth_sign` personal-message header `"\x19Ethereum Signed Message:\n"`. -/
def personalSignHeader : List Nat := asciiBytes "\x19Ethereum Signed Message:\n"

/-- The header followed by the decimal length `32`, i.e. the bytes of
`"\x19Ethereum Signed Message:\n32"`, used to state the hash scheme. -/
def msg32Header : List Nat := asciiBytes "\x19Ethereum Signed Message:\n32"

/-- `sigHash`: hash the encoded cheque, wrap the digest in the
personal-message header (`fmt.Sprintf` with the digest's decimal length),
and hash again. -/
def ChequeParams.sigHash (keccak : List Nat → List Nat) (cheque : ChequeParams) : List Nat :=
  let encoded := cheque.encodeForSignature
  let input := keccak encoded
  let withHeader := personalSignHeader ++ decimalAscii input.length ++ input
  keccak withHeader

/-- Specification-side big-endian encoding: `beBytes w x` is `x` written
as `w` bytes, most significant first (the low `w` bytes of `x`). -/
def beBytes : Nat → Nat → List Nat
  | 0, _ => []
  | w + 1, x => beBytes w (x / 256) ++ [x % 256]

/-- Big-endian byte-string value: the number a byte string denotes. -/
def fromBE (l : List Nat) : Nat := l.foldl (fun a b => 256 * a + b) 0

/-- The canonical signature string of the cash-out entry point, whose
Keccak-256 digest's first 4 bytes form the function selector. -/
def cashChequeBeneficiarySig : List Nat :=
  asciiBytes "cashChequeBeneficiary(address,uint256,bytes)"

/-- The 4-byte function selector for a given digest function. -/
def selector (keccak : List Nat → List Nat) : List Nat :=
  (keccak cashChequeBeneficiarySig).take 4

/-- An address ABI-encoded as a 32-byte word: left-padded with 12 zero
bytes. -/
def leftPad32Addr (a : EthAddress) : List Nat := List.replicate 12 0 ++ a.val

/-- ABI tail padding: extend to the next multiple of 32 bytes (no padding
when the length is already a multiple of 32). -/
def padRight32 (l : List Nat) : List Nat :=
  l ++ List.replicate ((32 - l.length % 32) % 32) 0

/-- Go's `int64(x)` conversion of a `uint64`: two's-complement
reinterpretation of the low 64 bits. -/
def int64OfUint64 (x : Nat) : Int :=
  if x % 2 ^ 64 < 2 ^ 63 then (x % 2 ^ 64 : Nat) else (x % 2 ^ 64 : Nat) - 2 ^ 64

/-- A `big.Int` ABI-encoded as a `uint256` word: go-ethereum reduces the
value modulo `2^256` (negative values wrap two's-complement style) and
writes it big-endian in 32 bytes. -/
def u256Word (v : Int) : List Nat := beBytes 32 (v % (2 : Int) ^ 256).toNat

/-- `abi.Pack("cashChequeBeneficiary", recipient, big.NewInt(int64(payout)), ownerSig)`:
selector, then the three-word head (address word, uint256 word, offset of
the dynamic bytes argument = 96), then the tail (length word and padded
signature bytes).  Packing of these argument types never fails in the
library, so the encoder is total. -/
def packCashChequeBeneficiary (keccak : List Nat → List Nat) (recipient : EthAddress)
    (cumulativePayout : Nat) (ownerSig : List Nat) : List Nat :=
  selector keccak ++ leftPad32Addr recipient ++ u256Word (int64OfUint64 cumulativePayout) ++
    beBytes 32 96 ++ beBytes 32 ownerSig.length ++ padRight32 ownerSig

/-- ABI decoding of `cashChequeBeneficiary` call data under the same
scheme: check the selector, read the address from the low 20 bytes of the
first head word, the payout from the second, follow the offset in the
third to the dynamic bytes argument, and read `length` bytes after its
length word.  Returns `none` on any shape mismatch. -/
def decodeCashChequeBeneficiary (keccak : List Nat → List Nat) (data : List Nat) :
    Option (List Nat × Nat × List Nat) :=
  if data.take 4 = selector keccak then
    let args := data.drop 4
    if 96 ≤ args.length then
      let recipient := (args.take 32).drop 12
      let payout := fromBE ((args.drop 32).take 32)
      let off := fromBE ((args.drop 64).take 32)
      let lenWord := (args.drop off).take 32
      if lenWord.length = 32 then
        let n := fromBE lenWord
        let sigData := (args.drop (off + 32)).take n
        if sigData.length = n then some (recipient, payout, sigData) else none
      else none
    else none
  else none

/-- The ledger-client capabilities `CashChequeBeneficiaryRequest` consumes
(`PendingNonceAt` and `SuggestGasPrice` of the `EthBackend`), with an
abstract error type `E`. -/
structure Backend (E : Type) where
  pendingNonceAt : EthAddress → Except E Nat
  suggestGasPrice : Except E Nat

/-- The transaction value object built by `types.NewTransaction`. -/
structure Transaction where
  nonce : Nat
  toAddress : EthAddress
  value : Int
  gasLimit : Nat
  gasPrice : Nat
  data : List Nat

/-- `CashChequeBeneficiaryRequest`: pack the call data, query the pending
nonce of the cheque's beneficiary and the suggested gas price (returning
the first error unmodified), and assemble the transaction with zero value
and a fixed gas limit of 1000000.  `abi.JSON` on the constant ABI string
and `abi.Pack` with these argument types never fail, so those source
error paths are unreachable and the packing step is modelled as pure. -/
def CashChequeBeneficiaryRequest {E : Type} (keccak : List Nat → List Nat)
    (backend : Backend E) (toAddress recipient : EthAddress) (cheque : ChequeParams)
    (ownerSig : List Nat) : Except E Transaction :=
  let callData := packCashChequeBeneficiary keccak recipient cheque.CumulativePayout ownerSig
  match backend.pendingNonceAt cheque.Beneficiary with
  | .error e => .error e
  | .ok nonce =>
    match backend.suggestGasPrice with
    | .error e => .error e
    | .ok gasPrice =>
      .ok { nonce := nonce, toAddress := toAddress, value := 0, gasLimit := 1000000,
            gasPrice := gasPrice, data := callData }

/-- A fixed dummy 32-byte digest function, used to instantiate witnesses. -/
def constHash (_ : List Nat) : List Nat := List.replicate 32 0

/-- The all-zero address, for witnesses. -/
def addr0 : EthAddress := ⟨List.replicate 20 0, by decide⟩

/-- A second concrete address, for witnesses. -/
def addr1 : EthAddress := ⟨(List.range 20).map (fun i => i + 1), by decide⟩

theorem length_beBytes (w x : Nat) : (beBytes w x).length = w := by
  induction w generalizing x with
  | zero => rfl
  | succ w ih => simp [beBytes, ih]

theorem beBytes_zero (w : Nat) : beBytes w 0 = List.replicate w 0 := by
  induction w with
  | zero => rfl
  | succ w ih => simp [beBytes, ih, List.replicate_succ' (n := w)]

theorem beBytes_small (k w x : Nat) (hx : x < 256 ^ w) :
    beBytes (k + w) x = List.replicate k 0 ++ beBytes w x := by
  induction w generalizing x with
  | zero =>
    interval_cases x
    simp [beBytes, beBytes_zero]
  | succ w ih =>
    have hdiv : x / 256 < 256 ^ w := by
      rw [Nat.div_lt_iff_lt_mul (by norm_num)]
      calc x < 256 ^ (w + 1) := hx
        _ = 256 ^ w * 256 := by ring
    show beBytes (k + w + 1) x = _
    rw [beBytes, beBytes, ih (x / 256) hdiv, List.append_assoc]

theorem putUint64BE_eq_beBytes (v : Nat) : putUint64BE v = beBytes 8 v := by
  simp [putUint64BE, beBytes, Nat.shiftRight_eq_div_pow, Nat.div_div_eq_div_mul]

theorem payoutBytes_eq_beBytes32 (x : Nat) (hx : x < 2 ^ 64) :
    List.replicate 24 0 ++ putUint64BE x = beBytes 32 x := by
  have h := beBytes_small 24 8 x (by norm_num at hx ⊢; exact hx)
  norm_num at h
  rw [putUint64BE_eq_beBytes, ← h]

/-- Canonical form of the encoding: addresses followed by the payout as a
32-byte big-endian integer. -/
theorem encodeForSignature_eq (cheque : ChequeParams)
    (hp : cheque.CumulativePayout < 2 ^ 64) :
    cheque.encodeForSignature =
      cheque.Contract.val ++ cheque.Beneficiary.val ++ beBytes 32 cheque.CumulativePayout := by
  simp only [ChequeParams.encodeForSignature]
  rw [payoutBytes_eq_beBytes32 _ hp]

theorem personalSignHeader_decimal32 : personalSignHeader ++ decimalAscii 32 = msg32Header := by
  decide

/-- Canonical form of the signature hash, given that the digest function
always returns 32 bytes. -/
theorem sigHash_eq (keccak : List Nat → List Nat) (hlen : ∀ l, (keccak l).length = 32)
    (cheque : ChequeParams) :
    cheque.sigHash keccak = keccak (msg32Header ++ keccak cheque.encodeForSignature) := by
  simp only [ChequeParams.sigHash, hlen]
  rw [← personalSignHeader_decimal32, List.append_assoc]

/-- A concrete cheque for witnesses: zero contract, `addr1` beneficiary,
payout 100. -/
def cheque0 : ChequeParams := ⟨addr0, addr1, 100⟩

/-- A second concrete cheque with the same contract and beneficiary but a
smaller payout. -/
def cheque1 : ChequeParams := ⟨addr0, addr1, 50⟩

/-- C1: for every cheque with a 64-bit payout, `sigHash` is the digest of
the byte string `"\x19Ethereum Signed Message:\n32"` concatenated with
the digest of `encodeForSignature`, and the result is exactly 32 bytes
(given that the digest function always returns 32 bytes, as Keccak-256
does). -/
theorem sigHash_eth_sign_scheme (keccak : List Nat → List Nat) (cheque : ChequeParams)
    (hlen : ∀ l, (keccak l).length = 32) (hp : cheque.CumulativePayout < 2 ^ 64) :
    cheque.sigHash keccak = keccak (msg32Header ++ keccak cheque.encodeForSignature) ∧
      (cheque.sigHash keccak).length = 32 :=
  ⟨sigHash_eq keccak hlen cheque, hlen _⟩

/-- Witness for C1 at a concrete digest function and cheque. -/
theorem sigHash_eth_sign_scheme_witness :
    cheque0.sigHash constHash = constHash (msg32Header ++ constHash cheque0.encodeForSignature) ∧
      (cheque0.sigHash constHash).length = 32 :=
  sigHash_eth_sign_scheme constHash cheque0 (fun _ => rfl) (by norm_num [cheque0])

/-- C2: the encoding is the 20-byte contract address, then the 20-byte
beneficiary address, then the payout as a 32-byte big-endian integer; the
first 24 of those 32 bytes are zero, and a zero payout makes the last 32
bytes all zero. -/
theorem encodeForSignature_layout (cheque : ChequeParams)
    (hp : cheque.CumulativePayout < 2 ^ 64) :
    cheque.encodeForSignature =
      cheque.Contract.val ++ cheque.Beneficiary.val ++ beBytes 32 cheque.CumulativePayout ∧
    (beBytes 32 cheque.CumulativePayout).take 24 = List.replicate 24 0 ∧
    (cheque.CumulativePayout = 0 →
      cheque.encodeForSignature =
        cheque.Contract.val ++ cheque.Beneficiary.val ++ List.replicate 32 0) := by
  refine ⟨encodeForSignature_eq cheque hp, ?_, ?_⟩
  · have h := (payoutBytes_eq_beBytes32 _ hp).symm
    rw [h]
    exact List.take_left' (by simp)
  · intro h0
    rw [encodeForSignature_eq cheque hp, h0, beBytes_zero]

/-- Witness for C2 at a concrete cheque. -/
theorem encodeForSignature_layout_witness :
    cheque0.encodeForSignature =
      cheque0.Contract.val ++ cheque0.Beneficiary.val ++ beBytes 32 cheque0.CumulativePayout ∧
    (beBytes 32 cheque0.CumulativePayout).take 24 = List.replicate 24 0 ∧
    (cheque0.CumulativePayout = 0 →
      cheque0.encodeForSignature =
        cheque0.Contract.val ++ cheque0.Beneficiary.val ++ List.replicate 32 0) :=
  encodeForSignature_layout cheque0 (by norm_num [cheque0])

/-- C3: for payouts up to `2^64 - 1`, the encoding is exactly 72 bytes. -/
theorem encodeForSignature_length_72 (cheque : ChequeParams)
    (hp : cheque.CumulativePayout ≤ 2 ^ 64 - 1) :
    cheque.encodeForSignature.length = 72 := by
  simp [ChequeParams.encodeForSignature, putUint64BE, cheque.Contract.property.1,
    cheque.Beneficiary.property.1]

/-- Witness for C3 at a concrete cheque. -/
theorem encodeForSignature_length_72_witness : cheque0.encodeForSignature.length = 72 :=
  encodeForSignature_length_72 cheque0 (by norm_num [cheque0])

/-- C6: two cheques for the same contract and beneficiary whose payouts
decrease are both encoded and hashed to their canonical values; nothing
in the model rejects the second cheque. -/
theorem cheque_model_accepts_decreasing_payout (keccak : List Nat → List Nat)
    (c1 c2 : ChequeParams) (hlen : ∀ l, (keccak l).length = 32)
    (hc : c1.Contract = c2.Contract) (hb : c1.Beneficiary = c2.Beneficiary)
    (hp1 : c1.CumulativePayout < 2 ^ 64)
    (hlt : c2.CumulativePayout < c1.CumulativePayout) :
    c1.encodeForSignature =
      c1.Contract.val ++ c1.Beneficiary.val ++ beBytes 32 c1.CumulativePayout ∧
    c2.encodeForSignature =
      c2.Contract.val ++ c2.Beneficiary.val ++ beBytes 32 c2.CumulativePayout ∧
    c1.sigHash keccak = keccak (msg32Header ++ keccak c1.encodeForSignature) ∧
    c2.sigHash keccak = keccak (msg32Header ++ keccak c2.encodeForSignature) :=
  ⟨encodeForSignature_eq c1 hp1, encodeForSignature_eq c2 (lt_trans hlt hp1),
   sigHash_eq keccak hlen c1, sigHash_eq keccak hlen c2⟩

/-- Witness for C6 at two concrete cheques with decreasing payouts. -/
theorem cheque_model_accepts_decreasing_payout_witness :
    cheque0.encodeForSignature =
      cheque0.Contract.val ++ cheque0.Beneficiary.val ++ beBytes 32 cheque0.CumulativePayout ∧
    cheque1.encodeForSignature =
      cheque1.Contract.val ++ cheque1.Beneficiary.val ++ beBytes 32 cheque1.CumulativePayout ∧
    cheque0.sigHash constHash = constHash (msg32Header ++ constHash cheque0.encodeForSignature) ∧
    cheque1.sigHash constHash = constHash (msg32Header ++ constHash cheque1.encodeForSignature) :=
  cheque_model_accepts_decreasing_payout constHash cheque0 cheque1 (fun _ => rfl) rfl rfl
    (by norm_num [cheque0]) (by norm_num [cheque0, cheque1])

/-- C9: the encoding and the signature hash depend only on the three
cheque fields — two cheques with equal fields produce identical bytes. -/
theorem encode_sigHash_deterministic (keccak : List Nat → List Nat) (c1 c2 : ChequeParams)
    (hc : c1.Contract = c2.Contract) (hb : c1.Beneficiary = c2.Beneficiary)
    (hp : c1.CumulativePayout = c2.CumulativePayout) :
    c1.encodeForSignature = c2.encodeForSignature ∧
      c1.sigHash keccak = c2.sigHash keccak := by
  obtain ⟨a1, b1, p1⟩ := c1
  obtain ⟨a2, b2, p2⟩ := c2
  cases hc
  cases hb
  cases hp
  exact ⟨rfl, rfl⟩

/-- Witness for C9 at two structurally equal concrete cheques. -/
theorem encode_sigHash_deterministic_witness :
    cheque0.encodeForSignature = (ChequeParams.mk addr0 addr1 100).encodeForSignature ∧
      cheque0.sigHash constHash = (ChequeParams.mk addr0 addr1 100).sigHash constHash :=
  encode_sigHash_deterministic constHash cheque0 (ChequeParams.mk addr0 addr1 100) rfl rfl rfl

set_option maxRecDepth 100000 in
/-- C4: the source converts the `uint64` payout through `int64` before
packing (`big.NewInt(int64(...))`), so a payout of `2^63` is reinterpreted
as `-2^63` and packed modulo `2^256`; decoding the call data returns
`2^256 - 2^63`, not the original payout, so the round trip fails on the
upper half of the `uint64` range. -/
theorem cashOut_calldata_payout_wraps_at_2pow63 :
    decodeCashChequeBeneficiary constHash
        (packCashChequeBeneficiary constHash addr1 (2 ^ 63) (List.replicate 65 1)) =
      some (addr1.val, 2 ^ 256 - 2 ^ 63, List.replicate 65 1) ∧
    (2 ^ 256 - 2 ^ 63 : Nat) ≠ 2 ^ 63 := by
  exact ⟨by decide, by decide⟩

/-- C5: for payout 100, the packed call data is exactly the 4-byte
selector of `cashChequeBeneficiary(address,uint256,bytes)`, the recipient
left-padded to 32 bytes, `100` as a 32-byte big-endian word, then the
dynamic bytes argument as offset word (96), length word, and padded
signature data. -/
theorem packCashChequeBeneficiary_layout_100 (keccak : List Nat → List Nat)
    (recipient : EthAddress) (ownerSig : List Nat)
    (hlen : ∀ l, (keccak l).length = 32) :
    packCashChequeBeneficiary keccak recipient 100 ownerSig =
      selector keccak ++ (List.replicate 12 0 ++ recipient.val) ++ beBytes 32 100 ++
        beBytes 32 96 ++ beBytes 32 ownerSig.length ++
        (ownerSig ++ List.replicate ((32 - ownerSig.length % 32) % 32) 0) ∧
    (selector keccak).length = 4 ∧
    selector keccak = (keccak (asciiBytes "cashChequeBeneficiary(address,uint256,bytes)")).take 4 := by
  refine ⟨?_, ?_, rfl⟩
  · have h100 : u256Word (int64OfUint64 100) = beBytes 32 100 := by
      have h1 : int64OfUint64 100 = 100 := by decide
      rw [h1]
      simp [u256Word]
    simp only [packCashChequeBeneficiary, leftPad32Addr, padRight32, h100]
  · simp [selector, hlen]

/-- Witness for C5 at a concrete digest, recipient and signature. -/
theorem packCashChequeBeneficiary_layout_100_witness :
    packCashChequeBeneficiary constHash addr1 100 [7, 8, 9] =
      selector constHash ++ (List.replicate 12 0 ++ addr1.val) ++ beBytes 32 100 ++
        beBytes 32 96 ++ beBytes 32 ([7, 8, 9] : List Nat).length ++
        (([7, 8, 9] : List Nat) ++
          List.replicate ((32 - ([7, 8, 9] : List Nat).length % 32) % 32) 0) ∧
    (selector constHash).length = 4 ∧
    selector constHash =
      (constHash (asciiBytes "cashChequeBeneficiary(address,uint256,bytes)")).take 4 :=
  packCashChequeBeneficiary_layout_100 constHash addr1 [7, 8, 9] (fun _ => rfl)

/-- C7: a successful request is a transaction with zero value, the packed
call data, the target contract as destination, the beneficiary's pending
nonce, the suggested gas price, and the fixed gas limit 1000000. -/
theorem cashOut_request_tx_fields {E : Type} (keccak : List Nat → List Nat)
    (backend : Backend E) (toAddress recipient : EthAddress) (cheque : ChequeParams)
    (ownerSig : List Nat) (tx : Transaction)
    (h : CashChequeBeneficiaryRequest keccak backend toAddress recipient cheque ownerSig =
      .ok tx) :
    tx.value = 0 ∧
    tx.data = packCashChequeBeneficiary keccak recipient cheque.CumulativePayout ownerSig ∧
    tx.toAddress = toAddress ∧
    backend.pendingNonceAt cheque.Beneficiary = .ok tx.nonce ∧
    backend.suggestGasPrice = .ok tx.gasPrice ∧
    tx.gasLimit = 1000000 := by
  cases h1 : backend.pendingNonceAt cheque.Beneficiary with
  | error e => simp [CashChequeBeneficiaryRequest, h1] at h
  | ok n =>
    cases h2 : backend.suggestGasPrice with
    | error e => simp [CashChequeBeneficiaryRequest, h1, h2] at h
    | ok g =>
      simp only [CashChequeBeneficiaryRequest, h1, h2, Except.ok.injEq] at h
      subst h
      exact ⟨rfl, rfl, rfl, rfl, rfl, rfl⟩

/-- A concrete backend whose queries succeed, for witnesses. -/
def backendOk : Backend String := ⟨fun _ => .ok 5, .ok 7⟩

/-- The transaction `backendOk` yields for `cheque0`, for witnesses. -/
def tx0 : Transaction := ⟨5, addr0, 0, 1000000, 7, packCashChequeBeneficiary constHash addr1 100 []⟩

/-- Witness for C7 at a concrete backend, cheque and transaction. -/
theorem cashOut_request_tx_fields_witness :
    tx0.value = 0 ∧
    tx0.data = packCashChequeBeneficiary constHash addr1 cheque0.CumulativePayout [] ∧
    tx0.toAddress = addr0 ∧
    backendOk.pendingNonceAt cheque0.Beneficiary = .ok tx0.nonce ∧
    backendOk.suggestGasPrice = .ok tx0.gasPrice ∧
    tx0.gasLimit = 1000000 :=
  cashOut_request_tx_fields constHash backendOk addr0 addr1 cheque0 [] tx0 rfl

/-- C8: a failing pending-nonce query is returned unmodified, a failing
fee-price query (after a successful nonce query) is returned unmodified,
and the request fails exactly when one of the two ledger queries fails
(ABI packing of these argument types cannot fail). -/
theorem cashOut_request_error_iff {E : Type} (keccak : List Nat → List Nat)
    (backend : Backend E) (toAddress recipient : EthAddress) (cheque : ChequeParams)
    (ownerSig : List Nat) :
    (∀ e, backend.pendingNonceAt cheque.Beneficiary = .error e →
      CashChequeBeneficiaryRequest keccak backend toAddress recipient cheque ownerSig =
        .error e) ∧
    (∀ n e, backend.pendingNonceAt cheque.Beneficiary = .ok n →
      backend.suggestGasPrice = .error e →
      CashChequeBeneficiaryRequest keccak backend toAddress recipient cheque ownerSig =
        .error e) ∧
    ((∃ e, CashChequeBeneficiaryRequest keccak backend toAddress recipient cheque ownerSig =
        .error e) ↔
      (∃ e, backend.pendingNonceAt cheque.Beneficiary = .error e) ∨
      (∃ e, backend.suggestGasPrice = .error e)) := by
  refine ⟨?_, ?_, ?_⟩
  · intro e he
    simp [CashChequeBeneficiaryRequest, he]
  · intro n e hn he
    simp [CashChequeBeneficiaryRequest, hn, he]
  · cases h1 : backend.pendingNonceAt cheque.Beneficiary with
    | error e => simp [CashChequeBeneficiaryRequest, h1]
    | ok n =>
      cases h2 : backend.suggestGasPrice with
      | error e => simp [CashChequeBeneficiaryRequest, h1, h2]
      | ok g => simp [CashChequeBeneficiaryRequest, h1, h2]

/-- A concrete backend whose pending-nonce query fails, for witnesses. -/
def backendNonceErr : Backend String := ⟨fun _ => .error "nonce unavailable", .ok 7⟩

/-- Witness for C8: the nonce query's error comes back unmodified. -/
theorem cashOut_request_error_iff_witness :
    CashChequeBeneficiaryRequest constHash backendNonceErr addr0 addr1 cheque0 [] =
      .error "nonce unavailable" :=
  (cashOut_request_error_iff constHash backendNonceErr addr0 addr1 cheque0 []).1
    "nonce unavailable" rfl

/-- C10: the nonce of a successfully built transaction is the pending
nonce of the cheque's beneficiary address — the function never consults
any separately supplied sender account. -/
theorem cashOut_nonce_from_beneficiary {E : Type} (keccak : List Nat → List Nat)
    (backend : Backend E) (toAddress recipient : EthAddress) (cheque : ChequeParams)
    (ownerSig : List Nat) (tx : Transaction)
    (h : CashChequeBeneficiaryRequest keccak backend toAddress recipient cheque ownerSig =
      .ok tx) :
    backend.pendingNonceAt cheque.Beneficiary = .ok tx.nonce := by
  cases h1 : backend.pendingNonceAt cheque.Beneficiary with
  | error e => simp [CashChequeBeneficiaryRequest, h1] at h
  | ok n =>
    cases h2 : backend.suggestGasPrice with
    | error e => simp [CashChequeBeneficiaryRequest, h1, h2] at h
    | ok g =>
      simp only [CashChequeBeneficiaryRequest, h1, h2, Except.ok.injEq] at h
      subst h
      exact rfl

/-- Witness for C10 at a concrete backend, cheque and transaction. -/
theorem cashOut_nonce_from_beneficiary_witness :
    backendOk.pendingNonceAt cheque0.Beneficiary = .ok tx0.nonce :=
  cashOut_nonce_from_beneficiary constHash backendOk addr0 addr1 cheque0 [] tx0 rfl
